import Mathlib

/-!
Shallow embedding of the ClinicalAiAssistant storage, authentication and
AI-delegation layers (src/server/storage.ts, src/server/db.ts, src/server/ai.ts,
src/unnamed/part_003), with theorems settling the frozen claims about them.

JS `Map<number, T>` values are modelled as association lists kept in insertion
order, with `Map.set` / `Map.get` semantics (`mapSet`, `mapGet`); `Map.values()`
iterates in insertion order (`mapValues`).  JSONB payloads whose contents the
code never inspects are carried as opaque `String` fields; timestamps as `Nat`.
-/

namespace ClinicalAI

/-- `InsertUser` from shared/schema.ts: `insertUserSchema` picks
`username` and `password`. -/
structure InsertUser where
  username : String
  password : String
deriving DecidableEq

/-- `User` row from shared/schema.ts (`users` table): serial id, username,
password, role (defaults to "doctor"). -/
structure User where
  id : Nat
  username : String
  password : String
  role : String
deriving DecidableEq

/-- One entry of `patients.medicalHistory` (condition, diagnosed_at). -/
structure MedEntry where
  condition : String
  diagnosed_at : String
deriving DecidableEq

/-- The non-id fields of a `Patient` row (`Omit<Patient, "id">` in
storage.ts).  `ehrData` is an opaque JSONB payload never inspected by the
storage layer, carried as an opaque string; `createdAt` as a numeric
timestamp. -/
structure PatientData where
  name : String
  dob : String
  medicalHistory : List MedEntry
  medications : List String
  ehrData : String
  createdAt : Nat
deriving DecidableEq

/-- `Patient` row from shared/schema.ts: a serial id plus the other fields. -/
structure Patient where
  id : Nat
  fields : PatientData
deriving DecidableEq

/-- One detected interaction finding, per the `interactionsDetected` JSONB
shape in shared/schema.ts. -/
structure Finding where
  drug1 : String
  drug2 : String
  risk : String
  description : String
deriving DecidableEq

/-- The non-id fields of a `DrugInteraction` row
(`Omit<DrugInteraction, "id">` in storage.ts). -/
structure InteractionData where
  patientId : Nat
  medications : List String
  interactionsDetected : List Finding
  checkedAt : Nat
deriving DecidableEq

/-- `DrugInteraction` row from shared/schema.ts: serial id plus fields. -/
structure DrugInteraction where
  id : Nat
  data : InteractionData
deriving DecidableEq

/-- JS `Map.get`: first (and only) binding of the key. -/
def mapGet (k : Nat) (m : List (Nat × α)) : Option α :=
  (m.find? (fun p => p.1 = k)).map (·.2)

/-- JS `Map.set`: update in place if the key is bound, else append, so that
`Map.values()` iteration stays in first-insertion order. -/
def mapSet (k : Nat) (v : α) (m : List (Nat × α)) : List (Nat × α) :=
  if m.any (fun p => p.1 = k) then
    m.map (fun p => if p.1 = k then (k, v) else p)
  else
    m ++ [(k, v)]

/-- JS `Array.from(map.values())`: the values in insertion order. -/
def mapValues (m : List (Nat × α)) : List α :=
  m.map (·.2)

/-- The private state of `MemStorage` (src/server/storage.ts): three maps and
the shared `currentId` counter, initialised to 1 in the constructor. -/
structure StorageState where
  users : List (Nat × User)
  patients : List (Nat × Patient)
  drugInteractions : List (Nat × DrugInteraction)
  currentId : Nat
deriving DecidableEq

/-- `new MemStorage()`: empty maps, `currentId = 1`. -/
def initState : StorageState :=
  { users := [], patients := [], drugInteractions := [], currentId := 1 }

/-- In-memory path of `MemStorage.getUser`: `this.users.get(id)`. -/
def memGetUser (s : StorageState) (id : Nat) : Option User :=
  mapGet id s.users

/-- In-memory path of `MemStorage.getUserByUsername`:
`Array.from(this.users.values()).find(u => u.username === username)`. -/
def memGetUserByUsername (s : StorageState) (username : String) : Option User :=
  (mapValues s.users).find? (fun u => u.username = username)

/-- In-memory path of `MemStorage.createUser`: take a fresh id from
`currentId++`, store `{...insertUser, id, role: "doctor"}`, return it. -/
def memCreateUser (s : StorageState) (ins : InsertUser) : User × StorageState :=
  let id := s.currentId
  let user : User :=
    { id := id, username := ins.username, password := ins.password, role := "doctor" }
  (user, { s with users := mapSet id user s.users, currentId := s.currentId + 1 })

/-- In-memory path of `MemStorage.getPatients`:
`Array.from(this.patients.values())`. -/
def memGetPatients (s : StorageState) : List Patient :=
  mapValues s.patients

/-- In-memory path of `MemStorage.getPatientById`: `this.patients.get(id)`. -/
def memGetPatientById (s : StorageState) (id : Nat) : Option Patient :=
  mapGet id s.patients

/-- In-memory path of `MemStorage.createPatient`: fresh id from `currentId++`,
store `{...patient, id}`, return it. -/
def memCreatePatient (s : StorageState) (p : PatientData) : Patient × StorageState :=
  let id := s.currentId
  let newPatient : Patient := { id := id, fields := p }
  (newPatient,
   { s with patients := mapSet id newPatient s.patients, currentId := s.currentId + 1 })

/-- In-memory path of `MemStorage.createDrugInteraction`: fresh id from
`currentId++`, store `{...interaction, id}`, return it. -/
def memCreateDrugInteraction (s : StorageState) (i : InteractionData) :
    DrugInteraction × StorageState :=
  let id := s.currentId
  let newInteraction : DrugInteraction := { id := id, data := i }
  (newInteraction,
   { s with drugInteractions := mapSet id newInteraction s.drugInteractions,
            currentId := s.currentId + 1 })

/-- In-memory path of `MemStorage.getPatientDrugInteractions`:
`Array.from(this.drugInteractions.values()).filter(i => i.patientId === patientId)`. -/
def memGetPatientDrugInteractions (s : StorageState) (patientId : Nat) :
    List DrugInteraction :=
  (mapValues s.drugInteractions).filter (fun i => i.data.patientId = patientId)

/-! ## Dual-backend operations (storage.ts with src/server/db.ts)

`db` in src/server/db.ts is `drizzle(neon(url))` when `DATABASE_URL` is set and
`null` otherwise.  Each `MemStorage` method first tries the durable backend
when `db` is non-null and falls through to the in-memory path when that call
throws.  A call's interaction with the durable backend is one of three shapes,
fixed per call: -/

/-- How the durable backend behaves for one storage call: `notConfigured`
models `db === null`; `healthy` models a `db` call that returns normally;
`failing` models a `db` call that throws at runtime. -/
inductive DbCall
  | notConfigured
  | healthy
  | failing
deriving DecidableEq

/-- A mutation issued to the durable backend (a drizzle `insert ... values`).
`insUser` records the `{...insertUser, role: "doctor"}` value built in
`createUser`. -/
inductive DbWrite
  | insUser (ins : InsertUser) (role : String)
  | insPatient (p : PatientData)
  | insInteraction (i : InteractionData)
deriving DecidableEq

/-- The durable backend as observed from this process: the sequence of
mutations successfully issued to it.  A throwing call persists nothing. -/
abbrev DbState := List DbWrite

/-- `MemStorage.getUser` with the durable backend: try `db.select()` first
(`dbRow` is the row set the backend would return), on throw log
`Database error in getUser` and serve `this.users.get(id)`. -/
def getUser (dbc : DbCall) (dbRow : Option User) (db : DbState)
    (s : StorageState) (id : Nat) :
    Option User × DbState × StorageState × List String :=
  match dbc with
  | .healthy => (dbRow, db, s, [])
  | .failing => (memGetUser s id, db, s, ["Database error in getUser"])
  | .notConfigured => (memGetUser s id, db, s, [])

/-- `MemStorage.getUserByUsername` with the durable backend. -/
def getUserByUsername (dbc : DbCall) (dbRow : Option User) (db : DbState)
    (s : StorageState) (username : String) :
    Option User × DbState × StorageState × List String :=
  match dbc with
  | .healthy => (dbRow, db, s, [])
  | .failing =>
      (memGetUserByUsername s username, db, s, ["Database error in getUserByUsername"])
  | .notConfigured => (memGetUserByUsername s username, db, s, [])

/-- `MemStorage.createUser` with the durable backend: try
`db.insert(users).values({...insertUser, role: "doctor"}).returning()` (the
backend's returned row is `dbRow`), on throw log and run the in-memory
creation. -/
def createUser (dbc : DbCall) (dbRow : User) (db : DbState)
    (s : StorageState) (ins : InsertUser) :
    User × DbState × StorageState × List String :=
  match dbc with
  | .healthy => (dbRow, db ++ [DbWrite.insUser ins "doctor"], s, [])
  | .failing =>
      let r := memCreateUser s ins
      (r.1, db, r.2, ["Database error in createUser"])
  | .notConfigured =>
      let r := memCreateUser s ins
      (r.1, db, r.2, [])

/-- `MemStorage.getPatients` with the durable backend. -/
def getPatients (dbc : DbCall) (dbRows : List Patient) (db : DbState)
    (s : StorageState) :
    List Patient × DbState × StorageState × List String :=
  match dbc with
  | .healthy => (dbRows, db, s, [])
  | .failing => (memGetPatients s, db, s, ["Database error in getPatients"])
  | .notConfigured => (memGetPatients s, db, s, [])

/-- `MemStorage.getPatientById` with the durable backend. -/
def getPatientById (dbc : DbCall) (dbRow : Option Patient) (db : DbState)
    (s : StorageState) (id : Nat) :
    Option Patient × DbState × StorageState × List String :=
  match dbc with
  | .healthy => (dbRow, db, s, [])
  | .failing => (memGetPatientById s id, db, s, ["Database error in getPatientById"])
  | .notConfigured => (memGetPatientById s id, db, s, [])

/-- `MemStorage.createPatient` with the durable backend. -/
def createPatient (dbc : DbCall) (dbRow : Patient) (db : DbState)
    (s : StorageState) (p : PatientData) :
    Patient × DbState × StorageState × List String :=
  match dbc with
  | .healthy => (dbRow, db ++ [DbWrite.insPatient p], s, [])
  | .failing =>
      let r := memCreatePatient s p
      (r.1, db, r.2, ["Database error in createPatient"])
  | .notConfigured =>
      let r := memCreatePatient s p
      (r.1, db, r.2, [])

/-- `MemStorage.createDrugInteraction` with the durable backend. -/
def createDrugInteraction (dbc : DbCall) (dbRow : DrugInteraction) (db : DbState)
    (s : StorageState) (i : InteractionData) :
    DrugInteraction × DbState × StorageState × List String :=
  match dbc with
  | .healthy => (dbRow, db ++ [DbWrite.insInteraction i], s, [])
  | .failing =>
      let r := memCreateDrugInteraction s i
      (r.1, db, r.2, ["Database error in createDrugInteraction"])
  | .notConfigured =>
      let r := memCreateDrugInteraction s i
      (r.1, db, r.2, [])

/-- `MemStorage.getPatientDrugInteractions` with the durable backend. -/
def getPatientDrugInteractions (dbc : DbCall) (dbRows : List DrugInteraction)
    (db : DbState) (s : StorageState) (patientId : Nat) :
    List DrugInteraction × DbState × StorageState × List String :=
  match dbc with
  | .healthy => (dbRows, db, s, [])
  | .failing =>
      (memGetPatientDrugInteractions s patientId, db, s,
       ["Database error in getPatientDrugInteractions"])
  | .notConfigured => (memGetPatientDrugInteractions s patientId, db, s, [])

/-! ## Traces of in-memory create calls

The identifier claims quantify over sequences of interleaved create calls in
one process lifetime.  A trace is a list of create operations run against the
in-memory backend (`db === null`, or every durable call failing — both run the
same in-memory code). -/

/-- One create call against the in-memory backend. -/
inductive CreateOp
  | mkUser (ins : InsertUser)
  | mkPatient (p : PatientData)
  | mkInteraction (i : InteractionData)
deriving DecidableEq

/-- The state after one in-memory create call. -/
def applyOp (s : StorageState) : CreateOp → StorageState
  | .mkUser ins => (memCreateUser s ins).2
  | .mkPatient p => (memCreatePatient s p).2
  | .mkInteraction i => (memCreateDrugInteraction s i).2

/-- Run a trace of create calls left to right. -/
def runOps (s : StorageState) : List CreateOp → StorageState
  | [] => s
  | op :: ops => runOps (applyOp s op) ops

/-- The identifier carried by the record a create call returns. -/
def retId (s : StorageState) : CreateOp → Nat
  | .mkUser ins => (memCreateUser s ins).1.id
  | .mkPatient p => (memCreatePatient s p).1.id
  | .mkInteraction i => (memCreateDrugInteraction s i).1.id

/-- The identifiers returned by the create calls of a trace, in call order,
across all three entity types. -/
def idsAssigned (s : StorageState) : List CreateOp → List Nat
  | [] => []
  | op :: ops => retId s op :: idsAssigned (applyOp s op) ops

/-- The identifiers of the patients returned by the `createPatient` calls of a
trace, in call order. -/
def patientIdsAssigned (s : StorageState) : List CreateOp → List Nat
  | [] => []
  | .mkPatient p :: ops =>
      (memCreatePatient s p).1.id :: patientIdsAssigned (applyOp s (.mkPatient p)) ops
  | op :: ops => patientIdsAssigned (applyOp s op) ops

/-- The `DrugInteraction` records returned by the `createDrugInteraction`
calls of a trace, in call order. -/
def interactionsCreated (s : StorageState) : List CreateOp → List DrugInteraction
  | [] => []
  | .mkInteraction i :: ops =>
      (memCreateDrugInteraction s i).1 ::
        interactionsCreated (applyOp s (.mkInteraction i)) ops
  | op :: ops => interactionsCreated (applyOp s op) ops

/-- Well-formedness maintained by `MemStorage`: every key in every map was
assigned by a past `currentId++`, so is below the current counter. -/
def StorageState.WF (s : StorageState) : Prop :=
  (∀ p ∈ s.users, p.1 < s.currentId) ∧
  (∀ p ∈ s.patients, p.1 < s.currentId) ∧
  (∀ p ∈ s.drugInteractions, p.1 < s.currentId)

instance (s : StorageState) : Decidable s.WF := by
  unfold StorageState.WF; infer_instance

/-! ## Lemmas about the map model -/

theorem mapSet_of_fresh (k : Nat) (v : α) (m : List (Nat × α))
    (h : ∀ p ∈ m, p.1 ≠ k) : mapSet k v m = m ++ [(k, v)] := by
  unfold mapSet
  have hany : m.any (fun p => p.1 = k) = false := by
    simp only [List.any_eq_false, decide_eq_true_eq]
    exact h
  simp [hany]

theorem mapGet_mapSet_self (k : Nat) (v : α) (m : List (Nat × α)) :
    mapGet k (mapSet k v m) = some v := by
  unfold mapGet mapSet
  by_cases hany : m.any (fun p => p.1 = k) = true
  · simp only [hany, if_true]
    induction m with
    | nil => simp at hany
    | cons q m ih =>
      by_cases hq : q.1 = k
      · simp [hq]
      · have hany' : m.any (fun p => p.1 = k) = true := by
          simpa [hq] using hany
        simpa [hq] using ih hany'
  · simp only [Bool.not_eq_true] at hany
    simp only [hany, if_false]
    have hnone : m.find? (fun p => decide (p.1 = k)) = none := by
      rw [List.find?_eq_none]
      intro x hx
      simp only [decide_eq_true_eq]
      have := List.any_eq_false.mp hany x hx
      simpa using this
    simp [List.find?_append, hnone]

theorem find?_key_update_of_ne (k k' : Nat) (v : α) (m : List (Nat × α))
    (hne : k' ≠ k) :
    (m.map (fun p => if p.1 = k then (k, v) else p)).find? (fun p => p.1 = k')
      = m.find? (fun p => p.1 = k') := by
  induction m with
  | nil => rfl
  | cons q m ih =>
    rw [List.map_cons]
    by_cases hq : q.1 = k
    · have h1 : ¬(((k, v) : Nat × α).1 = k') := fun h => hne h.symm
      have h2 : ¬(q.1 = k') := by rw [hq]; exact fun h => hne h.symm
      rw [if_pos hq, List.find?_cons_of_neg _ (by simpa using h1),
          List.find?_cons_of_neg _ (by simpa using h2)]
      exact ih
    · rw [if_neg hq]
      by_cases hq' : q.1 = k'
      · rw [List.find?_cons_of_pos _ (by simpa using hq'),
            List.find?_cons_of_pos _ (by simpa using hq')]
      · rw [List.find?_cons_of_neg _ (by simpa using hq'),
            List.find?_cons_of_neg _ (by simpa using hq')]
        exact ih

theorem mapGet_mapSet_of_ne (k k' : Nat) (v : α) (m : List (Nat × α))
    (hne : k' ≠ k) : mapGet k' (mapSet k v m) = mapGet k' m := by
  unfold mapGet mapSet
  by_cases hany : m.any (fun p => p.1 = k) = true
  · simp only [hany, if_true]
    rw [find?_key_update_of_ne k k' v m hne]
  · simp only [Bool.not_eq_true] at hany
    simp only [hany, if_false]
    have h1 : ¬(k = k') := fun h => hne h.symm
    simp [List.find?_append, h1]

theorem mapValues_mapSet_of_fresh (k : Nat) (v : α) (m : List (Nat × α))
    (h : ∀ p ∈ m, p.1 ≠ k) : mapValues (mapSet k v m) = mapValues m ++ [v] := by
  rw [mapSet_of_fresh k v m h]
  simp [mapValues]

theorem mapSet_length_of_fresh (k : Nat) (v : α) (m : List (Nat × α))
    (h : ∀ p ∈ m, p.1 ≠ k) : (mapSet k v m).length = m.length + 1 := by
  rw [mapSet_of_fresh k v m h]
  simp

/-! ## Invariants of the in-memory state machine -/

theorem initState_WF : initState.WF := by
  refine ⟨?_, ?_, ?_⟩ <;> intro p hp <;> simp [initState] at hp

theorem applyOp_currentId (s : StorageState) (op : CreateOp) :
    (applyOp s op).currentId = s.currentId + 1 := by
  cases op <;>
    simp [applyOp, memCreateUser, memCreatePatient, memCreateDrugInteraction]

theorem retId_eq (s : StorageState) (op : CreateOp) : retId s op = s.currentId := by
  cases op <;>
    simp [retId, memCreateUser, memCreatePatient, memCreateDrugInteraction]

theorem WF_applyOp (s : StorageState) (op : CreateOp) (h : s.WF) :
    (applyOp s op).WF := by
  obtain ⟨hu, hp, hd⟩ := h
  cases op with
  | mkUser ins =>
    refine ⟨?_, ?_, ?_⟩ <;>
      simp only [applyOp, memCreateUser] <;> intro q hq
    · rw [mapSet_of_fresh _ _ _ (fun p hp' => Nat.ne_of_lt (hu p hp'))] at hq
      rcases List.mem_append.mp hq with h1 | h1
      · exact Nat.lt_succ_of_lt (hu q h1)
      · rw [List.mem_singleton] at h1
        subst h1
        exact Nat.lt_succ_self _
    · exact Nat.lt_succ_of_lt (hp q hq)
    · exact Nat.lt_succ_of_lt (hd q hq)
  | mkPatient p =>
    refine ⟨?_, ?_, ?_⟩ <;>
      simp only [applyOp, memCreatePatient] <;> intro q hq
    · exact Nat.lt_succ_of_lt (hu q hq)
    · rw [mapSet_of_fresh _ _ _ (fun r hr => Nat.ne_of_lt (hp r hr))] at hq
      rcases List.mem_append.mp hq with h1 | h1
      · exact Nat.lt_succ_of_lt (hp q h1)
      · rw [List.mem_singleton] at h1
        subst h1
        exact Nat.lt_succ_self _
    · exact Nat.lt_succ_of_lt (hd q hq)
  | mkInteraction i =>
    refine ⟨?_, ?_, ?_⟩ <;>
      simp only [applyOp, memCreateDrugInteraction] <;> intro q hq
    · exact Nat.lt_succ_of_lt (hu q hq)
    · exact Nat.lt_succ_of_lt (hp q hq)
    · rw [mapSet_of_fresh _ _ _ (fun r hr => Nat.ne_of_lt (hd r hr))] at hq
      rcases List.mem_append.mp hq with h1 | h1
      · exact Nat.lt_succ_of_lt (hd q h1)
      · rw [List.mem_singleton] at h1
        subst h1
        exact Nat.lt_succ_self _

theorem WF_runOps (ops : List CreateOp) (s : StorageState) (h : s.WF) :
    (runOps s ops).WF := by
  induction ops generalizing s with
  | nil => exact h
  | cons op ops ih => exact ih (applyOp s op) (WF_applyOp s op h)

theorem idsAssigned_lb (ops : List CreateOp) (s : StorageState) :
    ∀ x ∈ idsAssigned s ops, s.currentId ≤ x := by
  induction ops generalizing s with
  | nil => intro x hx; simp [idsAssigned] at hx
  | cons op ops ih =>
    intro x hx
    simp only [idsAssigned, List.mem_cons] at hx
    rcases hx with h1 | h1
    · rw [h1, retId_eq]
    · have := ih (applyOp s op) x h1
      rw [applyOp_currentId] at this
      omega

theorem idsAssigned_pairwise (ops : List CreateOp) (s : StorageState) :
    (idsAssigned s ops).Pairwise (· < ·) := by
  induction ops generalizing s with
  | nil => exact List.Pairwise.nil
  | cons op ops ih =>
    refine List.Pairwise.cons ?_ (ih (applyOp s op))
    intro x hx
    have hlb := idsAssigned_lb ops (applyOp s op) x hx
    rw [applyOp_currentId] at hlb
    rw [retId_eq]
    omega

theorem patientIdsAssigned_sublist (ops : List CreateOp) (s : StorageState) :
    (patientIdsAssigned s ops).Sublist (idsAssigned s ops) := by
  induction ops generalizing s with
  | nil => exact List.Sublist.refl []
  | cons op ops ih =>
    cases op with
    | mkUser ins =>
      exact List.Sublist.cons _ (ih (applyOp s (.mkUser ins)))
    | mkPatient p =>
      exact List.Sublist.cons₂ _ (ih (applyOp s (.mkPatient p)))
    | mkInteraction i =>
      exact List.Sublist.cons _ (ih (applyOp s (.mkInteraction i)))

theorem patientIdsAssigned_pairwise (ops : List CreateOp) (s : StorageState) :
    (patientIdsAssigned s ops).Pairwise (· < ·) :=
  (idsAssigned_pairwise ops s).sublist (patientIdsAssigned_sublist ops s)

theorem interactions_values_runOps (ops : List CreateOp) (s : StorageState)
    (h : s.WF) :
    mapValues (runOps s ops).drugInteractions
      = mapValues s.drugInteractions ++ interactionsCreated s ops := by
  induction ops generalizing s with
  | nil => simp [runOps, interactionsCreated]
  | cons op ops ih =>
    cases op with
    | mkUser ins =>
      have h' := WF_applyOp s (.mkUser ins) h
      have hstep : (applyOp s (.mkUser ins)).drugInteractions = s.drugInteractions := rfl
      rw [runOps, ih _ h', hstep]
      rfl
    | mkPatient p =>
      have h' := WF_applyOp s (.mkPatient p) h
      have hstep : (applyOp s (.mkPatient p)).drugInteractions = s.drugInteractions := rfl
      rw [runOps, ih _ h', hstep]
      rfl
    | mkInteraction i =>
      have h' := WF_applyOp s (.mkInteraction i) h
      have hstep : (applyOp s (.mkInteraction i)).drugInteractions
          = s.drugInteractions ++ [(s.currentId, (memCreateDrugInteraction s i).1)] := by
        simp only [applyOp, memCreateDrugInteraction]
        exact mapSet_of_fresh _ _ _ (fun r hr => Nat.ne_of_lt (h.2.2 r hr))
      rw [runOps, ih _ h', hstep]
      simp only [mapValues, List.map_append, List.map_cons, List.map_nil,
        List.append_assoc, List.singleton_append]
      rfl

/-- Sample data used in closed instances. -/
def sampleUserIns : InsertUser :=
  { username := "doctor", password := "password123" }

/-- Sample patient fields used in closed instances. -/
def samplePatientData : PatientData :=
  { name := "Patient 1", dob := "1980-01-01", medicalHistory := [],
    medications := [], ehrData := "", createdAt := 0 }

/-- Sample interaction fields used in closed instances. -/
def sampleInteractionData (pid : Nat) : InteractionData :=
  { patientId := pid, medications := ["A", "B"], interactionsDetected := [],
    checkedAt := 0 }

/-! ## Claim theorems about the storage layer -/

/-- C1: for every Storage operation, when the durable backend is configured
but the call against it throws, the operation does not propagate the error:
it returns exactly what the in-memory path computes on the in-memory state,
transitions the in-memory state exactly as the in-memory path does, leaves
the durable backend untouched (no write-back of the in-memory result), and
emits the per-operation failure log line. -/
theorem failing_db_falls_back_in_memory_without_writeback :
    (∀ dbRow db s id, getUser .failing dbRow db s id
        = (memGetUser s id, db, s, ["Database error in getUser"])) ∧
    (∀ dbRow db s un, getUserByUsername .failing dbRow db s un
        = (memGetUserByUsername s un, db, s, ["Database error in getUserByUsername"])) ∧
    (∀ dbRow db s ins, createUser .failing dbRow db s ins
        = ((memCreateUser s ins).1, db, (memCreateUser s ins).2,
            ["Database error in createUser"])) ∧
    (∀ dbRows db s, getPatients .failing dbRows db s
        = (memGetPatients s, db, s, ["Database error in getPatients"])) ∧
    (∀ dbRow db s id, getPatientById .failing dbRow db s id
        = (memGetPatientById s id, db, s, ["Database error in getPatientById"])) ∧
    (∀ dbRow db s p, createPatient .failing dbRow db s p
        = ((memCreatePatient s p).1, db, (memCreatePatient s p).2,
            ["Database error in createPatient"])) ∧
    (∀ dbRow db s i, createDrugInteraction .failing dbRow db s i
        = ((memCreateDrugInteraction s i).1, db, (memCreateDrugInteraction s i).2,
            ["Database error in createDrugInteraction"])) ∧
    (∀ dbRows db s pid, getPatientDrugInteractions .failing dbRows db s pid
        = (memGetPatientDrugInteractions s pid, db, s,
            ["Database error in getPatientDrugInteractions"])) := by
  refine ⟨?_, ?_, ?_, ?_, ?_, ?_, ?_, ?_⟩ <;> intros <;> rfl

/-- C2: along any interleaved trace of in-memory create calls from any state,
the identifiers of the patients returned by the `createPatient` calls are
pairwise strictly increasing in call order (hence strictly increasing and
never repeated within a process lifetime). -/
theorem createPatient_ids_strictly_increasing_never_repeat
    (s : StorageState) (ops : List CreateOp) :
    (patientIdsAssigned s ops).Pairwise (· < ·) ∧ (patientIdsAssigned s ops).Nodup :=
  ⟨patientIdsAssigned_pairwise ops s,
   (patientIdsAssigned_pairwise ops s).imp Nat.ne_of_lt⟩

/-- C4: after any trace of in-memory create calls from the initial state,
`getPatientDrugInteractions pid` returns exactly the interaction records that
were created with `patientId = pid`, in creation order, and no record created
with a different `patientId`. -/
theorem getPatientDrugInteractions_exactly_created_for_patient
    (ops : List CreateOp) (pid : Nat) :
    memGetPatientDrugInteractions (runOps initState ops) pid
      = (interactionsCreated initState ops).filter
          (fun i => i.data.patientId = pid) := by
  unfold memGetPatientDrugInteractions
  rw [interactions_values_runOps ops initState initState_WF]
  rfl

/-- C9: the single shared `currentId` counter makes the identifiers returned
by all interleaved `createUser` / `createPatient` / `createDrugInteraction`
calls globally strictly increasing (hence globally unique); consequently a
patient created after one user receives identifier 2, not 1. -/
theorem shared_counter_global_ids_and_patient_after_user_gets_id_two :
    (∀ (s : StorageState) (ops : List CreateOp),
        (idsAssigned s ops).Pairwise (· < ·) ∧ (idsAssigned s ops).Nodup) ∧
    patientIdsAssigned initState
        [CreateOp.mkUser sampleUserIns, CreateOp.mkPatient samplePatientData]
      = [2] := by
  refine ⟨fun s ops => ⟨idsAssigned_pairwise ops s,
    (idsAssigned_pairwise ops s).imp Nat.ne_of_lt⟩, ?_⟩
  rfl

/-! ## Creation and retrieval on the in-memory path -/

theorem users_after_memCreateUser (s : StorageState) (ins : InsertUser)
    (hWF : s.WF) :
    (memCreateUser s ins).2.users
      = s.users ++ [(s.currentId, (memCreateUser s ins).1)] := by
  simp only [memCreateUser]
  exact mapSet_of_fresh _ _ _ (fun p hp => Nat.ne_of_lt (hWF.1 p hp))

theorem memGetUser_after_create (s : StorageState) (ins : InsertUser) :
    memGetUser (memCreateUser s ins).2 (memCreateUser s ins).1.id
      = some (memCreateUser s ins).1 := by
  simp only [memGetUser, memCreateUser]
  exact mapGet_mapSet_self _ _ _

theorem memGetUserByUsername_after_create (s : StorageState) (ins : InsertUser)
    (hWF : s.WF)
    (hfresh : ∀ u ∈ mapValues s.users, u.username ≠ ins.username) :
    memGetUserByUsername (memCreateUser s ins).2 ins.username
      = some (memCreateUser s ins).1 := by
  unfold memGetUserByUsername
  rw [users_after_memCreateUser s ins hWF]
  simp only [mapValues, List.map_append, List.map_cons, List.map_nil,
    List.find?_append]
  have hnone : (s.users.map (·.2)).find?
      (fun u => u.username = ins.username) = none := by
    rw [List.find?_eq_none]
    intro x hx
    simpa using hfresh x (by simpa [mapValues] using hx)
  rw [hnone]
  simp [memCreateUser]

theorem memCreateUser_users_length (s : StorageState) (ins : InsertUser)
    (hWF : s.WF) :
    (memCreateUser s ins).2.users.length = s.users.length + 1 := by
  rw [users_after_memCreateUser s ins hWF]
  simp

theorem patients_after_memCreatePatient (s : StorageState) (p : PatientData)
    (hWF : s.WF) :
    (memCreatePatient s p).2.patients
      = s.patients ++ [(s.currentId, (memCreatePatient s p).1)] := by
  simp only [memCreatePatient]
  exact mapSet_of_fresh _ _ _ (fun q hq => Nat.ne_of_lt (hWF.2.1 q hq))

theorem interactions_after_memCreateDrugInteraction (s : StorageState)
    (i : InteractionData) (hWF : s.WF) :
    (memCreateDrugInteraction s i).2.drugInteractions
      = s.drugInteractions ++ [(s.currentId, (memCreateDrugInteraction s i).1)] := by
  simp only [memCreateDrugInteraction]
  exact mapSet_of_fresh _ _ _ (fun q hq => Nat.ne_of_lt (hWF.2.2 q hq))

theorem memCreateUser_WF (s : StorageState) (ins : InsertUser) (hWF : s.WF) :
    (memCreateUser s ins).2.WF := WF_applyOp s (.mkUser ins) hWF

theorem memCreatePatient_WF (s : StorageState) (p : PatientData) (hWF : s.WF) :
    (memCreatePatient s p).2.WF := WF_applyOp s (.mkPatient p) hWF

theorem memCreateDrugInteraction_WF (s : StorageState) (i : InteractionData)
    (hWF : s.WF) : (memCreateDrugInteraction s i).2.WF :=
  WF_applyOp s (.mkInteraction i) hWF

/-- The behaviour of `createUser` followed by the two lookups when the
durable backend is not configured (`db === null`): the create succeeds with
the submitted fields and the default role, and the created user is returned
by `getUser` on its identifier and by `getUserByUsername` on its username. -/
def createThenRetrieveOnNullDb (dbRow : User) (dbRow' dbRow'' : Option User)
    (db db' db'' : DbState) (s : StorageState) (ins : InsertUser) : Prop :=
  (createUser .notConfigured dbRow db s ins).1.username = ins.username ∧
  (createUser .notConfigured dbRow db s ins).1.password = ins.password ∧
  (createUser .notConfigured dbRow db s ins).1.role = "doctor" ∧
  (getUser .notConfigured dbRow' db'
      (createUser .notConfigured dbRow db s ins).2.2.1
      (createUser .notConfigured dbRow db s ins).1.id).1
    = some (createUser .notConfigured dbRow db s ins).1 ∧
  (getUserByUsername .notConfigured dbRow'' db''
      (createUser .notConfigured dbRow db s ins).2.2.1 ins.username).1
    = some (createUser .notConfigured dbRow db s ins).1

/-- C7: with the durable backend not configured, `createUser` succeeds via
the in-memory path and the created user is retrievable in the same process
by id and by username. -/
theorem createUser_on_null_db_succeeds_and_is_retrievable
    (dbRow : User) (dbRow' dbRow'' : Option User) (db db' db'' : DbState)
    (s : StorageState) (ins : InsertUser) (hWF : s.WF)
    (hfresh : ∀ u ∈ mapValues s.users, u.username ≠ ins.username) :
    createThenRetrieveOnNullDb dbRow dbRow' dbRow'' db db' db'' s ins := by
  refine ⟨rfl, rfl, rfl, ?_, ?_⟩
  · exact memGetUser_after_create s ins
  · exact memGetUserByUsername_after_create s ins hWF hfresh

/-- Witness for C7 at a concrete input. -/
theorem createUser_on_null_db_succeeds_and_is_retrievable_witness :
    initState.WF ∧
    (∀ u ∈ mapValues initState.users, u.username ≠ sampleUserIns.username) ∧
    createThenRetrieveOnNullDb ⟨0, "", "", ""⟩ none none [] [] []
      initState sampleUserIns :=
  ⟨by decide, by decide,
   createUser_on_null_db_succeeds_and_is_retrievable ⟨0, "", "", ""⟩ none none
     [] [] [] initState sampleUserIns (by decide) (by decide)⟩

/-- Calling `createUser` twice with the same input on the in-memory path:
each call grows the user map by exactly one entry, and the two calls return
two distinct records with two distinct identifiers, both stored. -/
def usersCreateTwice (s : StorageState) (ins : InsertUser) : Prop :=
  (memCreateUser s ins).2.users.length = s.users.length + 1 ∧
  (memCreateUser (memCreateUser s ins).2 ins).2.users.length = s.users.length + 2 ∧
  (memCreateUser (memCreateUser s ins).2 ins).1.id ≠ (memCreateUser s ins).1.id ∧
  (memCreateUser (memCreateUser s ins).2 ins).1 ≠ (memCreateUser s ins).1 ∧
  memGetUser (memCreateUser (memCreateUser s ins).2 ins).2
      (memCreateUser s ins).1.id = some (memCreateUser s ins).1 ∧
  memGetUser (memCreateUser (memCreateUser s ins).2 ins).2
      (memCreateUser (memCreateUser s ins).2 ins).1.id
    = some (memCreateUser (memCreateUser s ins).2 ins).1

/-- `usersCreateTwice`, for `createPatient`. -/
def patientsCreateTwice (s : StorageState) (p : PatientData) : Prop :=
  (memCreatePatient s p).2.patients.length = s.patients.length + 1 ∧
  (memCreatePatient (memCreatePatient s p).2 p).2.patients.length
    = s.patients.length + 2 ∧
  (memCreatePatient (memCreatePatient s p).2 p).1.id ≠ (memCreatePatient s p).1.id ∧
  (memCreatePatient (memCreatePatient s p).2 p).1 ≠ (memCreatePatient s p).1 ∧
  memGetPatientById (memCreatePatient (memCreatePatient s p).2 p).2
      (memCreatePatient s p).1.id = some (memCreatePatient s p).1 ∧
  memGetPatientById (memCreatePatient (memCreatePatient s p).2 p).2
      (memCreatePatient (memCreatePatient s p).2 p).1.id
    = some (memCreatePatient (memCreatePatient s p).2 p).1

/-- `usersCreateTwice`, for `createDrugInteraction`.  Lookup is by direct map
access on the stored key, since the storage interface has no per-id getter
for interaction checks. -/
def interactionsCreateTwice (s : StorageState) (i : InteractionData) : Prop :=
  (memCreateDrugInteraction s i).2.drugInteractions.length
    = s.drugInteractions.length + 1 ∧
  (memCreateDrugInteraction (memCreateDrugInteraction s i).2 i).2.drugInteractions.length
    = s.drugInteractions.length + 2 ∧
  (memCreateDrugInteraction (memCreateDrugInteraction s i).2 i).1.id
    ≠ (memCreateDrugInteraction s i).1.id ∧
  (memCreateDrugInteraction (memCreateDrugInteraction s i).2 i).1
    ≠ (memCreateDrugInteraction s i).1 ∧
  mapGet (memCreateDrugInteraction s i).1.id
      (memCreateDrugInteraction (memCreateDrugInteraction s i).2 i).2.drugInteractions
    = some (memCreateDrugInteraction s i).1 ∧
  mapGet (memCreateDrugInteraction (memCreateDrugInteraction s i).2 i).1.id
      (memCreateDrugInteraction (memCreateDrugInteraction s i).2 i).2.drugInteractions
    = some (memCreateDrugInteraction (memCreateDrugInteraction s i).2 i).1

theorem usersCreateTwice_of_WF (s : StorageState) (ins : InsertUser)
    (hWF : s.WF) : usersCreateTwice s ins := by
  have hWF' := memCreateUser_WF s ins hWF
  have hidne : (memCreateUser (memCreateUser s ins).2 ins).1.id
      ≠ (memCreateUser s ins).1.id := by
    simp [memCreateUser]
  refine ⟨memCreateUser_users_length s ins hWF, ?_, hidne,
    fun h => hidne (congrArg User.id h), ?_, ?_⟩
  · rw [memCreateUser_users_length (memCreateUser s ins).2 ins hWF',
        memCreateUser_users_length s ins hWF]
  · simp only [memGetUser, memCreateUser]
    rw [mapGet_mapSet_of_ne _ _ _ _ (by simp), mapGet_mapSet_self]
  · exact memGetUser_after_create (memCreateUser s ins).2 ins

theorem patientsCreateTwice_of_WF (s : StorageState) (p : PatientData)
    (hWF : s.WF) : patientsCreateTwice s p := by
  have hWF' := memCreatePatient_WF s p hWF
  have hlen1 : (memCreatePatient s p).2.patients.length = s.patients.length + 1 := by
    rw [patients_after_memCreatePatient s p hWF]; simp
  have hlen2 : (memCreatePatient (memCreatePatient s p).2 p).2.patients.length
      = (memCreatePatient s p).2.patients.length + 1 := by
    rw [patients_after_memCreatePatient (memCreatePatient s p).2 p hWF']; simp
  have hidne : (memCreatePatient (memCreatePatient s p).2 p).1.id
      ≠ (memCreatePatient s p).1.id := by
    simp [memCreatePatient]
  refine ⟨hlen1, by rw [hlen2, hlen1], hidne,
    fun h => hidne (congrArg Patient.id h), ?_, ?_⟩
  · simp only [memGetPatientById, memCreatePatient]
    rw [mapGet_mapSet_of_ne _ _ _ _ (by simp), mapGet_mapSet_self]
  · simp only [memGetPatientById, memCreatePatient]
    exact mapGet_mapSet_self _ _ _

theorem interactionsCreateTwice_of_WF (s : StorageState) (i : InteractionData)
    (hWF : s.WF) : interactionsCreateTwice s i := by
  have hWF' := memCreateDrugInteraction_WF s i hWF
  have hlen1 : (memCreateDrugInteraction s i).2.drugInteractions.length
      = s.drugInteractions.length + 1 := by
    rw [interactions_after_memCreateDrugInteraction s i hWF]; simp
  have hlen2 :
      (memCreateDrugInteraction (memCreateDrugInteraction s i).2 i).2.drugInteractions.length
      = (memCreateDrugInteraction s i).2.drugInteractions.length + 1 := by
    rw [interactions_after_memCreateDrugInteraction
      (memCreateDrugInteraction s i).2 i hWF']; simp
  have hidne : (memCreateDrugInteraction (memCreateDrugInteraction s i).2 i).1.id
      ≠ (memCreateDrugInteraction s i).1.id := by
    simp [memCreateDrugInteraction]
  refine ⟨hlen1, by rw [hlen2, hlen1], hidne,
    fun h => hidne (congrArg DrugInteraction.id h), ?_, ?_⟩
  · simp only [memCreateDrugInteraction]
    rw [mapGet_mapSet_of_ne _ _ _ _ (by simp), mapGet_mapSet_self]
  · simp only [memCreateDrugInteraction]
    exact mapGet_mapSet_self _ _ _

/-- C8: every create operation mutates the stored state exactly once per
call and is not idempotent: two calls with identical input yield two distinct
stored records with two distinct identifiers. -/
theorem create_calls_mutate_once_and_are_not_idempotent
    (s : StorageState) (ins : InsertUser) (p : PatientData) (i : InteractionData)
    (hWF : s.WF) :
    usersCreateTwice s ins ∧ patientsCreateTwice s p ∧
      interactionsCreateTwice s i :=
  ⟨usersCreateTwice_of_WF s ins hWF, patientsCreateTwice_of_WF s p hWF,
   interactionsCreateTwice_of_WF s i hWF⟩

/-- Witness for C8 at a concrete input. -/
theorem create_calls_mutate_once_and_are_not_idempotent_witness :
    initState.WF ∧
    (usersCreateTwice initState sampleUserIns ∧
     patientsCreateTwice initState samplePatientData ∧
     interactionsCreateTwice initState (sampleInteractionData 1)) :=
  ⟨by decide,
   create_calls_mutate_once_and_are_not_idempotent initState sampleUserIns
     samplePatientData (sampleInteractionData 1) (by decide)⟩

/-- C3 (counterexample): `MemStorage.createUser` does not fail on a duplicate
username.  From the fresh store, after `createUser {username := "alice",
password := "h1"}`, a second `createUser` with username `"alice"` returns a
new record (it does not error) and the user map then holds two records, so
the second call neither failed nor overwrote the first. -/
theorem second_createUser_same_username_succeeds_counterexample :
    (memCreateUser (memCreateUser initState ⟨"alice", "h1"⟩).2 ⟨"alice", "h2"⟩).2.users.length
      = 2 ∧
    (memCreateUser (memCreateUser initState ⟨"alice", "h1"⟩).2 ⟨"alice", "h2"⟩).1
      ≠ (memCreateUser initState ⟨"alice", "h1"⟩).1 ∧
    memGetUser
      (memCreateUser (memCreateUser initState ⟨"alice", "h1"⟩).2 ⟨"alice", "h2"⟩).2
      (memCreateUser initState ⟨"alice", "h1"⟩).1.id
      = some (memCreateUser initState ⟨"alice", "h1"⟩).1 := by
  decide

/-- What the code actually guarantees for a duplicate username at the
storage layer: the first create is retrievable by username with the stored
hash; a second create with the same username succeeds, producing a second,
distinct record with a distinct identifier, leaving the first record stored
and still the one `getUserByUsername` returns. -/
def duplicateUsernameBehavior (s : StorageState) (ins ins' : InsertUser) : Prop :=
  memGetUserByUsername (memCreateUser s ins).2 ins.username
    = some (memCreateUser s ins).1 ∧
  (memCreateUser s ins).1.username = ins.username ∧
  (memCreateUser s ins).1.password = ins.password ∧
  (memCreateUser (memCreateUser s ins).2 ins').1.id ≠ (memCreateUser s ins).1.id ∧
  (memCreateUser (memCreateUser s ins).2 ins').1 ≠ (memCreateUser s ins).1 ∧
  (memCreateUser (memCreateUser s ins).2 ins').2.users.length = s.users.length + 2 ∧
  memGetUser (memCreateUser (memCreateUser s ins).2 ins').2
      (memCreateUser s ins).1.id = some (memCreateUser s ins).1 ∧
  memGetUserByUsername (memCreateUser (memCreateUser s ins).2 ins').2 ins.username
    = some (memCreateUser s ins).1

/-- C3 (amended): after `createUser {username := "alice", password := hash}`,
`getUserByUsername "alice"` returns that user with the same stored hash; a
second `createUser` with username `"alice"` does not fail — it creates a
second, distinct record with a distinct identifier — and it does not
overwrite the first record, which stays stored and is still the record
`getUserByUsername "alice"` returns. -/
theorem createUser_then_lookup_and_duplicate_makes_second_record
    (s : StorageState) (ins ins' : InsertUser) (hWF : s.WF)
    (hfresh : ∀ u ∈ mapValues s.users, u.username ≠ ins.username) :
    duplicateUsernameBehavior s ins ins' := by
  have hWF' := memCreateUser_WF s ins hWF
  have hidne : (memCreateUser (memCreateUser s ins).2 ins').1.id
      ≠ (memCreateUser s ins).1.id := by
    simp [memCreateUser]
  have h1 := memGetUserByUsername_after_create s ins hWF hfresh
  refine ⟨h1, rfl, rfl, hidne, fun h => hidne (congrArg User.id h), ?_, ?_, ?_⟩
  · rw [memCreateUser_users_length (memCreateUser s ins).2 ins' hWF',
        memCreateUser_users_length s ins hWF]
  · simp only [memGetUser, memCreateUser]
    rw [mapGet_mapSet_of_ne _ _ _ _ (by simp), mapGet_mapSet_self]
  · unfold memGetUserByUsername at h1 ⊢
    rw [users_after_memCreateUser (memCreateUser s ins).2 ins' hWF']
    simp only [mapValues, List.map_append, List.find?_append] at h1 ⊢
    rw [h1]
    rfl

/-- Witness for the amended C3 at a concrete input. -/
theorem createUser_then_lookup_and_duplicate_makes_second_record_witness :
    initState.WF ∧
    (∀ u ∈ mapValues initState.users, u.username ≠ "alice") ∧
    duplicateUsernameBehavior initState ⟨"alice", "h1"⟩ ⟨"alice", "h2"⟩ :=
  ⟨by decide, by decide,
   createUser_then_lookup_and_duplicate_makes_second_record initState
     ⟨"alice", "h1"⟩ ⟨"alice", "h2"⟩ (by decide) (by decide)⟩

/-! ## Password hashing (src/unnamed/part_003, scrypt variant)

`hashPassword` and `comparePasswords` manipulate node `Buffer`s and hex
strings.  Bytes are `Nat`s (meaningful when `< 256`); `Buffer.toString("hex")`
and `Buffer.from(-, "hex")` are `bytesToHex` / `hexToBytes`; JS
`String.split(".")` is `splitOnDot` on the character list.  The scrypt key
derivation itself is a node-crypto primitive, kept abstract as a function
parameter `scryptF : String → String → List Nat` (password, salt ↦ derived
key bytes), matching how the source calls `scryptAsync(password, salt, 64)`. -/

/-- The sixteen lowercase hex digit characters, in value order. -/
def hexDigits : List Char := "0123456789abcdef".data

/-- The hex digit character of a nibble value. -/
def hexDigit (n : Nat) : Char := hexDigits.getD n '0'

/-- `Buffer.toString("hex")` for one byte: two lowercase hex chars. -/
def byteToHex (b : Nat) : List Char := [hexDigit (b / 16), hexDigit (b % 16)]

/-- `Buffer.toString("hex")` for a byte sequence. -/
def bytesToHex (bs : List Nat) : List Char := (bs.map byteToHex).flatten

/-- The value of a hex digit character (node parses both cases; the code
only produces lowercase). -/
def hexCharVal (c : Char) : Nat :=
  if '0' ≤ c ∧ c ≤ '9' then c.toNat - '0'.toNat
  else if 'a' ≤ c ∧ c ≤ 'f' then c.toNat - 'a'.toNat + 10
  else 0

/-- `Buffer.from(s, "hex")`: consume pairs of hex chars, dropping an odd
trailing char as node does. -/
def hexToBytes : List Char → List Nat
  | c1 :: c2 :: rest => (16 * hexCharVal c1 + hexCharVal c2) :: hexToBytes rest
  | _ => []

/-- JS `String.prototype.split(".")` on a character list. -/
def splitOnDot : List Char → List (List Char)
  | [] => [[]]
  | c :: cs =>
    if c = '.' then [] :: splitOnDot cs
    else
      match splitOnDot cs with
      | [] => [[c]]
      | p :: ps => (c :: p) :: ps

/-- node `crypto.timingSafeEqual`: throws when the buffers have different
byte lengths, otherwise compares contents (in constant time, a timing
property outside the functional model). -/
def timingSafeEqual (a b : List Nat) : Except String Bool :=
  if a.length = b.length then .ok (decide (a = b))
  else .error "Input buffers must have the same byte length"

/-- `hashPassword` (scrypt variant): derive a 64-byte key from the password
and the hex salt and store `"<keyHex>.<saltHex>"`.  The fresh
`randomBytes(16)` salt is passed in as `saltBytes`. -/
def hashPassword (scryptF : String → String → List Nat) (password : String)
    (saltBytes : List Nat) : String :=
  let salt := bytesToHex saltBytes
  let buf := scryptF password ⟨salt⟩
  ⟨bytesToHex buf ++ '.' :: salt⟩

/-- `comparePasswords` (scrypt variant): split the stored string on `"."`,
hex-decode the stored key, re-derive from the supplied password under the
stored salt, and compare with `timingSafeEqual`.  A stored string with no
`"."` makes the salt `undefined` and the scrypt call throw. -/
def comparePasswords (scryptF : String → String → List Nat)
    (supplied stored : String) : Except String Bool :=
  match splitOnDot stored.data with
  | hashed :: salt :: _ =>
      timingSafeEqual (hexToBytes hashed) (scryptF supplied ⟨salt⟩)
  | _ => .error "The salt is undefined"

theorem hexDigit_ne_dot (n : Nat) : hexDigit n ≠ '.' := by
  by_cases h : n < 16
  · interval_cases n <;> decide
  · have hlen : hexDigits.length ≤ n := by
      have h16 : hexDigits.length = 16 := rfl
      omega
    rw [hexDigit, List.getD_eq_default _ _ hlen]
    decide

theorem hexCharVal_hexDigit (n : Nat) (h : n < 16) :
    hexCharVal (hexDigit n) = n := by
  interval_cases n <;> decide

theorem dot_not_mem_bytesToHex (bs : List Nat) : '.' ∉ bytesToHex bs := by
  induction bs with
  | nil => simp [bytesToHex]
  | cons b bs ih =>
    simp only [bytesToHex, List.map_cons, List.flatten_cons, byteToHex] at ih ⊢
    intro hmem
    rcases List.mem_append.mp hmem with h1 | h1
    · rw [List.mem_cons, List.mem_singleton] at h1
      rcases h1 with h | h
      · exact hexDigit_ne_dot (b / 16) h.symm
      · exact hexDigit_ne_dot (b % 16) h.symm
    · exact ih h1

theorem hexToBytes_bytesToHex (bs : List Nat) (h : ∀ b ∈ bs, b < 256) :
    hexToBytes (bytesToHex bs) = bs := by
  induction bs with
  | nil => rfl
  | cons b bs ih =>
    have hb : b < 256 := h b (List.mem_cons_self _ _)
    have h1 : b / 16 < 16 := by omega
    have h2 : b % 16 < 16 := Nat.mod_lt _ (by omega)
    have hrest : ∀ x ∈ bs, x < 256 := fun x hx => h x (List.mem_cons_of_mem _ hx)
    simp only [bytesToHex, List.map_cons, List.flatten_cons, byteToHex,
      List.cons_append, List.nil_append, hexToBytes]
    rw [hexCharVal_hexDigit _ h1, hexCharVal_hexDigit _ h2]
    congr 1
    · omega
    · simpa [bytesToHex] using ih hrest

theorem splitOnDot_no_dot (l : List Char) (h : '.' ∉ l) : splitOnDot l = [l] := by
  induction l with
  | nil => rfl
  | cons c cs ih =>
    have hc : ¬(c = '.') := fun hc => h (hc ▸ List.mem_cons_self _ _)
    have hcs : '.' ∉ cs := fun hm => h (List.mem_cons_of_mem _ hm)
    simp only [splitOnDot, if_neg hc, ih hcs]

theorem splitOnDot_append (a b : List Char) (h : '.' ∉ a) :
    splitOnDot (a ++ '.' :: b) = a :: splitOnDot b := by
  induction a with
  | nil => simp [splitOnDot]
  | cons c a' ih =>
    have hc : ¬(c = '.') := fun hc => h (hc ▸ List.mem_cons_self _ _)
    have ha' : '.' ∉ a' := fun hm => h (List.mem_cons_of_mem _ hm)
    simp only [List.cons_append, splitOnDot, if_neg hc]
    have ih' : splitOnDot (a'.append ('.' :: b)) = a' :: splitOnDot b := ih ha'
    rw [ih']

/-- C10: `comparePasswords p (hashPassword p)` is `true` for every password,
every random salt, and every scrypt derivation whose output is made of
bytes. -/
theorem comparePasswords_of_hashPassword (scryptF : String → String → List Nat)
    (p : String) (saltBytes : List Nat)
    (hd : ∀ b ∈ scryptF p ⟨bytesToHex saltBytes⟩, b < 256) :
    comparePasswords scryptF p (hashPassword scryptF p saltBytes) = .ok true := by
  unfold comparePasswords hashPassword
  simp only []
  rw [splitOnDot_append _ _ (dot_not_mem_bytesToHex _),
    splitOnDot_no_dot _ (dot_not_mem_bytesToHex _)]
  show timingSafeEqual
      (hexToBytes (bytesToHex (scryptF p ⟨bytesToHex saltBytes⟩)))
      (scryptF p ⟨bytesToHex saltBytes⟩) = .ok true
  rw [hexToBytes_bytesToHex _ hd]
  simp [timingSafeEqual]

/-- Witness for C10 at a concrete input. -/
theorem comparePasswords_of_hashPassword_witness :
    (∀ b ∈ (fun (a b : String) => [a.length % 256, b.length % 256])
        "password123" ⟨bytesToHex [1, 2]⟩, b < 256) ∧
    comparePasswords (fun (a b : String) => [a.length % 256, b.length % 256])
        "password123"
        (hashPassword (fun (a b : String) => [a.length % 256, b.length % 256])
          "password123" [1, 2])
      = .ok true :=
  ⟨by decide,
   comparePasswords_of_hashPassword
     (fun (a b : String) => [a.length % 256, b.length % 256])
     "password123" [1, 2] (by decide)⟩

theorem comparePasswords_wrong_password (scryptF : String → String → List Nat)
    (p p' : String) (saltBytes : List Nat)
    (hd : ∀ b ∈ scryptF p ⟨bytesToHex saltBytes⟩, b < 256)
    (hlen : (scryptF p' ⟨bytesToHex saltBytes⟩).length
      = (scryptF p ⟨bytesToHex saltBytes⟩).length)
    (hne : scryptF p' ⟨bytesToHex saltBytes⟩ ≠ scryptF p ⟨bytesToHex saltBytes⟩) :
    comparePasswords scryptF p' (hashPassword scryptF p saltBytes) = .ok false := by
  unfold comparePasswords hashPassword
  simp only []
  rw [splitOnDot_append _ _ (dot_not_mem_bytesToHex _),
    splitOnDot_no_dot _ (dot_not_mem_bytesToHex _)]
  show timingSafeEqual
      (hexToBytes (bytesToHex (scryptF p ⟨bytesToHex saltBytes⟩)))
      (scryptF p' ⟨bytesToHex saltBytes⟩) = .ok false
  rw [hexToBytes_bytesToHex _ hd]
  unfold timingSafeEqual
  rw [if_pos hlen.symm]
  have hdec : decide (scryptF p ⟨bytesToHex saltBytes⟩
      = scryptF p' ⟨bytesToHex saltBytes⟩) = false :=
    decide_eq_false (fun h => hne h.symm)
  rw [hdec]

/-! ## Login verification (src/unnamed/part_003, both auth variants)

Each variant registers a passport `LocalStrategy` whose verify callback looks
the user up through the storage layer (here on its in-memory path, i.e. with
the durable backend absent) and reports one of three outcomes through `done`:
an authenticated user, a failure (with an optional info message), or an
error. -/

/-- Outcome a `LocalStrategy` verify callback passes to `done`: success with
the user, failure with an optional info message, or an error. -/
inductive VerifyOutcome
  | success (u : User)
  | failure (info : Option String)
  | err (msg : String)
deriving DecidableEq

/-- Verify callback of the scrypt auth variant: `done(null, false)` when the
user is absent or `comparePasswords` is false; `done(null, user)` on a match;
`done(error)` when `comparePasswords` throws. -/
def scryptVerify (scryptF : String → String → List Nat) (s : StorageState)
    (username password : String) : VerifyOutcome :=
  match memGetUserByUsername s username with
  | none => .failure none
  | some user =>
    match comparePasswords scryptF password user.password with
    | .error e => .err e
    | .ok true => .success user
    | .ok false => .failure none

/-- Verify callback of the bcrypt auth variant: distinct info messages for a
missing user and a wrong password, the user on a `bcrypt.compare` match. -/
def bcryptVerify (bcryptCompare : String → String → Bool) (s : StorageState)
    (username password : String) : VerifyOutcome :=
  match memGetUserByUsername s username with
  | none => .failure (some "Incorrect username")
  | some user =>
      if bcryptCompare password user.password then .success user
      else .failure (some "Incorrect password")

/-- Modelled from the spec: the HTTP response `POST /api/login` produces from
a strategy outcome.  The route is `app.post("/api/login",
passport.authenticate("local"), handler)` in both variants; the
`passport.authenticate` middleware itself (framework code outside src/) turns
any strategy failure into the generic `401 Unauthorized` response — §7 of the
spec: authentication failure is a "generic 401" that "never leaks which
credential was wrong", and the strategy's info message is not part of the
response.  A strategy error goes to the framework error handler (500); only
on success does the variant's own handler run (`onSuccess`). -/
def loginHttpResponse (onSuccess : User → Nat × String) :
    VerifyOutcome → Nat × String
  | .success u => onSuccess u
  | .failure _ => (401, "Unauthorized")
  | .err _ => (500, "Internal Server Error")

/-- The login scenario of C5: `goodName` is a stored account whose password
hash was produced by `hashPassword` from `correctPw` (scrypt variant) and
which `bcryptCompare` accepts exactly for `correctPw` (bcrypt variant);
`badName` is not stored; `wrongPw` derives a different key than `correctPw`
under the stored salt. -/
def loginScenario (scryptF : String → String → List Nat)
    (bcryptCompare : String → String → Bool) (s : StorageState)
    (goodName badName correctPw wrongPw : String) (saltBytes : List Nat)
    (u : User) : Prop :=
  memGetUserByUsername s goodName = some u ∧
  u.password = hashPassword scryptF correctPw saltBytes ∧
  memGetUserByUsername s badName = none ∧
  (∀ b ∈ scryptF correctPw ⟨bytesToHex saltBytes⟩, b < 256) ∧
  (scryptF wrongPw ⟨bytesToHex saltBytes⟩).length
    = (scryptF correctPw ⟨bytesToHex saltBytes⟩).length ∧
  scryptF wrongPw ⟨bytesToHex saltBytes⟩ ≠ scryptF correctPw ⟨bytesToHex saltBytes⟩ ∧
  bcryptCompare correctPw u.password = true ∧
  bcryptCompare wrongPw u.password = false

instance (scryptF : String → String → List Nat)
    (bcryptCompare : String → String → Bool) (s : StorageState)
    (goodName badName correctPw wrongPw : String) (saltBytes : List Nat)
    (u : User) :
    Decidable (loginScenario scryptF bcryptCompare s goodName badName
      correctPw wrongPw saltBytes u) := by
  unfold loginScenario; infer_instance

/-- The conclusions of C5: correct credentials succeed in both variants; in
the scrypt variant the wrong-password run and the unknown-username run
produce literally the same strategy outcome; and in both variants the two
failure runs produce the same HTTP login response, the generic
`401 Unauthorized`. -/
def loginFailuresIndistinguishable (scryptF : String → String → List Nat)
    (bcryptCompare : String → String → Bool) (s : StorageState)
    (goodName badName correctPw wrongPw : String) (u : User) : Prop :=
  scryptVerify scryptF s goodName correctPw = .success u ∧
  bcryptVerify bcryptCompare s goodName correctPw = .success u ∧
  scryptVerify scryptF s goodName wrongPw = scryptVerify scryptF s badName wrongPw ∧
  (∀ onSuccess : User → Nat × String,
    loginHttpResponse onSuccess (scryptVerify scryptF s goodName wrongPw)
      = loginHttpResponse onSuccess (scryptVerify scryptF s badName wrongPw) ∧
    loginHttpResponse onSuccess (scryptVerify scryptF s goodName wrongPw)
      = (401, "Unauthorized")) ∧
  (∀ onSuccess : User → Nat × String,
    loginHttpResponse onSuccess (bcryptVerify bcryptCompare s goodName wrongPw)
      = loginHttpResponse onSuccess (bcryptVerify bcryptCompare s badName wrongPw) ∧
    loginHttpResponse onSuccess (bcryptVerify bcryptCompare s goodName wrongPw)
      = (401, "Unauthorized"))

/-- C5: in the login scenario, correct credentials succeed, and the failure
produced for a wrong password on an existing account is indistinguishable
from the failure produced for a non-existent username — identical strategy
outcomes in the scrypt variant, and the identical generic 401 response in
both variants. -/
theorem login_correct_succeeds_and_failures_indistinguishable
    (scryptF : String → String → List Nat)
    (bcryptCompare : String → String → Bool) (s : StorageState)
    (goodName badName correctPw wrongPw : String) (saltBytes : List Nat)
    (u : User)
    (h : loginScenario scryptF bcryptCompare s goodName badName correctPw
      wrongPw saltBytes u) :
    loginFailuresIndistinguishable scryptF bcryptCompare s goodName badName
      correctPw wrongPw u := by
  obtain ⟨hu, hpw, hno, hd, hlen, hne, hbok, hbbad⟩ := h
  have hok : comparePasswords scryptF correctPw u.password = .ok true := by
    rw [hpw]; exact comparePasswords_of_hashPassword scryptF correctPw saltBytes hd
  have hbad : comparePasswords scryptF wrongPw u.password = .ok false := by
    rw [hpw]
    exact comparePasswords_wrong_password scryptF correctPw wrongPw saltBytes hd hlen hne
  have h1 : scryptVerify scryptF s goodName correctPw = .success u := by
    simp only [scryptVerify, hu, hok]
  have h2 : bcryptVerify bcryptCompare s goodName correctPw = .success u := by
    simp only [bcryptVerify, hu, hbok, if_true]
  have h3g : scryptVerify scryptF s goodName wrongPw = .failure none := by
    simp only [scryptVerify, hu, hbad]
  have h3b : scryptVerify scryptF s badName wrongPw = .failure none := by
    simp only [scryptVerify, hno]
  have h4g : bcryptVerify bcryptCompare s goodName wrongPw
      = .failure (some "Incorrect password") := by
    simp [bcryptVerify, hu, hbbad]
  have h4b : bcryptVerify bcryptCompare s badName wrongPw
      = .failure (some "Incorrect username") := by
    simp only [bcryptVerify, hno]
  refine ⟨h1, h2, by rw [h3g, h3b], ?_, ?_⟩
  · intro onSuccess
    rw [h3g, h3b]
    exact ⟨rfl, rfl⟩
  · intro onSuccess
    rw [h4g, h4b]
    exact ⟨rfl, rfl⟩

/-- Witness for C5 at a concrete input: a store holding only the account
`"alice"` with the hash of `"pw"`, looked up as `"alice"` (wrong password
`"x"`) and as the unknown `"bob"`. -/
theorem login_correct_succeeds_and_failures_indistinguishable_witness :
    loginScenario (fun (a _ : String) => [a.length % 256])
      (fun (sup _ : String) => decide (sup = "pw"))
      (memCreateUser initState
        ⟨"alice", hashPassword (fun (a _ : String) => [a.length % 256]) "pw" [1]⟩).2
      "alice" "bob" "pw" "x" [1]
      (memCreateUser initState
        ⟨"alice", hashPassword (fun (a _ : String) => [a.length % 256]) "pw" [1]⟩).1 ∧
    loginFailuresIndistinguishable (fun (a _ : String) => [a.length % 256])
      (fun (sup _ : String) => decide (sup = "pw"))
      (memCreateUser initState
        ⟨"alice", hashPassword (fun (a _ : String) => [a.length % 256]) "pw" [1]⟩).2
      "alice" "bob" "pw" "x"
      (memCreateUser initState
        ⟨"alice", hashPassword (fun (a _ : String) => [a.length % 256]) "pw" [1]⟩).1 :=
  ⟨by decide,
   login_correct_succeeds_and_failures_indistinguishable _ _ _ "alice" "bob"
     "pw" "x" [1] _ (by decide)⟩

/-! ## AI delegation (src/server/ai.ts, `checkDrugInteractions`)

The outbound OpenAI call (request, response content, JSON parse) is the
external collaborator; one call is summarised by
`callAI : List String → Except AiCallErr InteractionReport` — either the
parsed report, or the failure the `catch` block classifies.  The returned
pair's second component records whether the AI API was called. -/

/-- How one OpenAI chat-completion attempt can fail, as classified by the
`catch` in `checkDrugInteractions`: HTTP 429, HTTP 401, or anything else
(network errors, missing content, unparsable JSON). -/
inductive AiCallErr
  | rateLimit
  | authFailure
  | other (msg : String)
deriving DecidableEq

/-- One entry of the report's `interactions` array, per the prompt's JSON
contract (`recommendation` is present in the AI/fallback paths, absent in the
mock path). -/
structure InteractionEntry where
  drug1 : String
  drug2 : String
  risk : String
  description : String
  recommendation : Option String
deriving DecidableEq

/-- The value `checkDrugInteractions` resolves with: the interactions list
plus the optional summary. -/
structure InteractionReport where
  interactions : List InteractionEntry
  summary : Option String
deriving DecidableEq

/-- The mock report returned when no API key is set and two or more
medications were supplied: one `Low` entry over `medications[0]` and
`medications[1]`. -/
def mockReport (medications : List String) : InteractionReport :=
  { interactions :=
      [{ drug1 := medications.getD 0 "", drug2 := medications.getD 1 "",
         risk := "Low",
         description := "Minor interaction that generally doesn't require monitoring.",
         recommendation := none }],
    summary := none }

/-- The fallback report built in the `catch` block for errors other than
429/401. -/
def fallbackReport (medications : List String) : InteractionReport :=
  { interactions :=
      if 2 ≤ medications.length then
        [{ drug1 := medications.getD 0 "", drug2 := medications.getD 1 "",
           risk := "Unknown",
           description := "Unable to analyze interaction due to system error",
           recommendation := some "Consult a pharmacist" }]
      else [],
    summary := some "Error analyzing drug interactions. This is fallback information." }

/-- `checkDrugInteractions`: with no API key or fewer than two medications,
return the empty report (fewer than two) or the mock report (no key) without
calling the AI; otherwise call the AI and return its parsed report, rethrow
429/401 as descriptive errors, and degrade any other failure to the fallback
report. -/
def checkDrugInteractions (hasApiKey : Bool)
    (callAI : List String → Except AiCallErr InteractionReport)
    (medications : List String) : Except String InteractionReport × Bool :=
  if hasApiKey = false ∨ medications.length < 2 then
    if medications.length < 2 then
      (.ok { interactions := [], summary := none }, false)
    else
      (.ok (mockReport medications), false)
  else
    match callAI medications with
    | .ok r => (.ok r, true)
    | .error .rateLimit =>
        (.error "API rate limit exceeded. Please try again later.", true)
    | .error .authFailure =>
        (.error "Authentication error with OpenAI API. Check your API key.", true)
    | .error (.other _) => (.ok (fallbackReport medications), true)

/-- C6: with fewer than two medications, `checkDrugInteractions` returns an
empty interactions list and does not call the AI API, whatever the API key
configuration and whatever the AI would have answered. -/
theorem checkDrugInteractions_short_list_empty_no_ai_call
    (medications : List String) (h : medications.length < 2)
    (hasApiKey : Bool)
    (callAI : List String → Except AiCallErr InteractionReport) :
    checkDrugInteractions hasApiKey callAI medications
      = (.ok { interactions := [], summary := none }, false) := by
  unfold checkDrugInteractions
  rw [if_pos (Or.inr h), if_pos h]

/-- Witness for C6 at a concrete input: a single medication, an API key set,
an AI that would have reported an interaction. -/
theorem checkDrugInteractions_short_list_empty_no_ai_call_witness :
    (["A"] : List String).length < 2 ∧
    checkDrugInteractions true
        (fun meds => .ok (mockReport meds)) ["A"]
      = (.ok { interactions := [], summary := none }, false) :=
  ⟨by decide,
   checkDrugInteractions_short_list_empty_no_ai_call ["A"] (by decide) true
     (fun meds => .ok (mockReport meds))⟩

end ClinicalAI
